import Mathlib

/-!
Verification of the NEXUS decision-and-control core.

This file gives a shallow embedding, in Lean 4, of the pure decision logic of
the NEXUS backend (`backend/app`): the relevance scorer
(`services/scoring.py`), the action policy (`agents/action.py`), the event
deduplicator (`services/deduplication.py`), the preference learner
(`services/preference_engine.py`) and the mode-based safety gate of the agent
orchestrator (`agents/orchestrator.py`).  Python floats are modelled as exact
rationals, dicts as structures or association lists, and the external
collaborators (HTTP clients, the Anthropic API, websockets) as oracle
parameters supplying each dispatch outcome.
-/

namespace Nexus

/-! ## Python standard-library models -/

/-- Models Python `str.lower` (character-wise lowering; agrees with CPython on
the ASCII strings the repository compares). -/
def pyLower (s : String) : String := String.mk (s.data.map Char.toLower)

/-- Models the Python substring test `needle in hay`.  The empty needle is a
substring of everything, as in Python. -/
def listInfix (needle hay : List Char) : Bool :=
  match hay with
  | [] => needle.isEmpty
  | _ :: t => needle.isPrefixOf hay || listInfix needle t

/-- Models Python `round` on an exact fraction `num / den` (with `den > 0`):
round half to even, as CPython does for floats. -/
def pyRoundFrac (num den : Int) : Int :=
  let f := Int.fdiv num den
  let r := num - f * den
  if 2 * r < den then f
  else if den < 2 * r then f + 1
  else if f % 2 = 0 then f else f + 1

/-- Models Python `round` on a rational: round half to even. -/
def pyRound (q : ℚ) : ℤ :=
  let f := ⌊q⌋
  let r := q - f
  if r < 1 / 2 then f
  else if 1 / 2 < r then f + 1
  else if f % 2 = 0 then f else f + 1

/-- Result of parsing an ISO date string: the fields the scorer reads
(`strftime("%A")` needs year/month/day, `.hour` the hour). -/
structure DateTimeM where
  year : Nat
  month : Nat
  day : Nat
  hour : Nat
deriving DecidableEq, Repr

/-- Day count of a month in the Gregorian calendar. -/
def daysInMonth (y m : Nat) : Nat :=
  if m = 2 then
    if y % 4 = 0 ∧ (y % 100 ≠ 0 ∨ y % 400 = 0) then 29 else 28
  else if m = 4 ∨ m = 6 ∨ m = 9 ∨ m = 11 then 30
  else 31

/-- Decimal value of a digit character, or `none`. -/
def digitVal (c : Char) : Option Nat :=
  if c.isDigit then some (c.toNat - 48) else none

/-- Assemble and validate a parsed date. -/
def mkDateTime (y1 y2 y3 y4 m1 m2 d1 d2 : Char) (hour : Nat) : Option DateTimeM :=
  match digitVal y1, digitVal y2, digitVal y3, digitVal y4,
        digitVal m1, digitVal m2, digitVal d1, digitVal d2 with
  | some a, some b, some c, some d, some e, some f, some g, some h =>
    let year := 1000 * a + 100 * b + 10 * c + d
    let month := 10 * e + f
    let day := 10 * g + h
    if 1 ≤ month ∧ month ≤ 12 ∧ 1 ≤ day ∧ day ≤ daysInMonth year month ∧ hour < 24 then
      some ⟨year, month, day, hour⟩
    else none
  | _, _, _, _, _, _, _, _ => none

/-- Models `datetime.fromisoformat` to the extent the scorer uses it: a valid
`YYYY-MM-DD` date, optionally followed by a `T` or space and an hour.  The
model is lenient about the tail after the hour digits (CPython validates the
minutes and seconds too); no claim in this development depends on the tail. -/
def parseISO (s : String) : Option DateTimeM :=
  match s.data with
  | [y1, y2, y3, y4, '-', m1, m2, '-', d1, d2] =>
    mkDateTime y1 y2 y3 y4 m1 m2 d1 d2 0
  | y1 :: y2 :: y3 :: y4 :: '-' :: m1 :: m2 :: '-' :: d1 :: d2 :: sep :: h1 :: h2 :: _ =>
    if sep = 'T' ∨ sep = ' ' then
      match digitVal h1, digitVal h2 with
      | some a, some b => mkDateTime y1 y2 y3 y4 m1 m2 d1 d2 (10 * a + b)
      | _, _ => none
    else none
  | _ => none

/-- Weekday of a Gregorian date via the Zeller congruence, rendered as
Python `strftime("%A").lower()` renders it. -/
def dayOfWeekName (y m d : Nat) : String :=
  let y := if m ≤ 2 then y - 1 else y
  let m := if m ≤ 2 then m + 12 else m
  let k := y % 100
  let j := y / 100
  let h := (d + 13 * (m + 1) / 5 + k + k / 4 + j / 4 + 5 * j) % 7
  if h = 0 then "saturday"
  else if h = 1 then "sunday"
  else if h = 2 then "monday"
  else if h = 3 then "tuesday"
  else if h = 4 then "wednesday"
  else if h = 5 then "thursday"
  else "friday"

/-! ## Data model: items and profiles (`services/scoring.py`)

Python passes dicts; the embedding uses structures whose fields are the keys
the code reads, with the dict `get` defaults baked into the field types
(`Option` where the code distinguishes a missing key). -/

/-- A speaker entry of an enriched event (`speaker.get("company")`,
`speaker.get("role")`). -/
structure Speaker where
  company : Option String
  role : Option String
deriving DecidableEq, Repr

/-- An enriched event as the scorer reads it (`enriched.get("topics", [])`,
`enriched.get("speakers", [])`, `enriched.get("event_type", "")`,
`enriched.get("date")`). -/
structure EventItem where
  topics : List String
  speakers : List Speaker
  event_type : String
  date : Option String
deriving DecidableEq, Repr

/-- A user profile as the scorer and action policy read it.  The two
thresholds are `Option` because `ActionAgent.decide` falls back to the
system defaults when the profile does not carry them. -/
structure UserProfile where
  interests : List String
  target_companies : List String
  target_roles : List String
  preferred_event_types : List String
  preferred_days : List String
  preferred_times : List String
  auto_apply_threshold : Option ℚ
  suggest_threshold : Option ℚ
deriving DecidableEq, Repr

/-! ## ScoringEngine (`services/scoring.py`) -/

/-- `ScoringEngine._score_topics`: 0-30 from the overlap between event topics
and user interests. -/
def _score_topics (event_topics user_interests : List String) : ℚ :=
  if user_interests.isEmpty then 0 else
  let normalised_interests := user_interests.map pyLower
  let normalised_topics := event_topics.map pyLower
  let matchCount := (normalised_topics.filter (fun t => normalised_interests.contains t)).length
  let ratio : ℚ := (matchCount : ℚ) / (max normalised_interests.length 1 : ℕ)
  min 30 (ratio * 30)

/-- Loop body of `ScoringEngine._score_people`: one speaker's additions to
the running points. -/
def speakerStep (target_companies target_roles : List String) (points : ℚ)
    (speaker : Speaker) : ℚ :=
  let company := pyLower (speaker.company.getD "")
  let role := pyLower (speaker.role.getD "")
  let points := if company ≠ "" ∧ target_companies.contains company then points + 12.5 else points
  if role ≠ "" ∧ target_roles.any (fun tr => listInfix tr.data role.data) then points + 12.5
  else points

/-- `ScoringEngine._score_people`: 0-25 from speakers at target companies or
with roles substring-matching a target role.  Each speaker contributes
independently; the cap is applied to the accumulated total. -/
def _score_people (speakers : List Speaker) (user_profile : UserProfile) : ℚ :=
  if speakers.isEmpty then 0 else
  let target_companies := user_profile.target_companies.map pyLower
  let target_roles := user_profile.target_roles.map pyLower
  if target_companies.isEmpty ∧ target_roles.isEmpty then 0 else
  min 25 (speakers.foldl (speakerStep target_companies target_roles) 0)

/-- Per-speaker contribution of `_score_people`, written additively: used to
state what the accumulation loop computes. -/
def speakerPoints (target_companies target_roles : List String) (speaker : Speaker) : ℚ :=
  (if pyLower (speaker.company.getD "") ≠ "" ∧
      target_companies.contains (pyLower (speaker.company.getD "")) then 12.5 else 0)
    + (if pyLower (speaker.role.getD "") ≠ "" ∧
        target_roles.any (fun tr => listInfix tr.data (pyLower (speaker.role.getD "")).data)
       then 12.5 else 0)

/-- Modelled from the claim wording of the people dimension, for comparison
with the source's `_score_people`: a single +12.5 when ANY speaker's company
matches a target company and a single +12.5 when ANY speaker's role
substring-matches a target role, capped at 25. -/
def score_people_claim (speakers : List Speaker) (user_profile : UserProfile) : ℚ :=
  if speakers.isEmpty then 0 else
  let target_companies := user_profile.target_companies.map pyLower
  let target_roles := user_profile.target_roles.map pyLower
  if target_companies.isEmpty ∧ target_roles.isEmpty then 0 else
  let company_award : ℚ :=
    if speakers.any (fun s => !(pyLower (s.company.getD "") == "")
        && target_companies.contains (pyLower (s.company.getD ""))) then 12.5 else 0
  let role_award : ℚ :=
    if speakers.any (fun s => !(pyLower (s.role.getD "") == "")
        && target_roles.any (fun tr => listInfix tr.data (pyLower (s.role.getD "")).data))
    then 12.5 else 0
  min 25 (company_award + role_award)

/-- The fixed related-type map of `ScoringEngine._score_event_type`. -/
def related_event_types (t : String) : List String :=
  if t = "conference" then ["meetup", "workshop", "demo_day"]
  else if t = "meetup" then ["conference", "happy_hour"]
  else if t = "dinner" then ["happy_hour"]
  else if t = "workshop" then ["conference", "meetup"]
  else if t = "happy_hour" then ["dinner", "meetup"]
  else if t = "demo_day" then ["conference", "meetup"]
  else []

/-- `ScoringEngine._score_event_type`: 15 on an exact preferred-type match,
7.5 on a related type, else 0. -/
def _score_event_type (event_type : String) (preferred_types : List String) : ℚ :=
  if preferred_types.isEmpty then 0 else
  let normalised_pref := preferred_types.map pyLower
  let normalised_type := pyLower event_type
  if normalised_pref.contains normalised_type then 15
  else if (related_event_types normalised_type).any (fun r => normalised_pref.contains r) then 7.5
  else 0

/-- `ScoringEngine._score_time`: 0-15 from day-of-week and time-of-day
preferences; neutral 7.5 when the date is missing or unparsable. -/
def _score_time (date_str : Option String) (preferred_days preferred_times : List String) : ℚ :=
  match date_str with
  | none => 7.5
  | some ds =>
    if ds = "" then 7.5 else
    match parseISO ds with
    | none => 7.5
    | some dt =>
      let day_name := dayOfWeekName dt.year dt.month dt.day
      let normalised_days := preferred_days.map pyLower
      let s1 : ℚ := if preferred_days.isEmpty ∨ normalised_days.contains day_name then 7.5 else 0
      let normalised_times := preferred_times.map pyLower
      let s2 : ℚ :=
        if preferred_times.isEmpty then 7.5
        else if normalised_times.contains "morning" ∧ 6 ≤ dt.hour ∧ dt.hour < 12 then 7.5
        else if normalised_times.contains "afternoon" ∧ 12 ≤ dt.hour ∧ dt.hour < 17 then 7.5
        else if normalised_times.contains "evening" ∧ 17 ≤ dt.hour ∧ dt.hour < 23 then 7.5
        else 0
      min 15 (s1 + s2)

/-- `ScoringEngine._score_historical`: the fixed neutral placeholder. -/
def _score_historical (_enriched : EventItem) (_user_profile : UserProfile) : ℚ := 7.5

/-- `ScoringEngine.calculate_relevance`: the sum of the five dimensions,
clamped to [0, 100]. -/
def calculate_relevance (enriched : EventItem) (user_profile : UserProfile) : ℚ :=
  let topic_score := _score_topics enriched.topics user_profile.interests
  let people_score := _score_people enriched.speakers user_profile
  let event_type_score := _score_event_type enriched.event_type user_profile.preferred_event_types
  let time_score := _score_time enriched.date user_profile.preferred_days user_profile.preferred_times
  let historical_score := _score_historical enriched user_profile
  let raw := topic_score + people_score + event_type_score + time_score + historical_score
  max 0 (min 100 raw)

/-! ## ActionAgent (`agents/action.py`) -/

/-- The decision record produced by `ActionAgent.decide`. -/
structure ActionDecision where
  action : String
  should_schedule : Bool
  reason : String
deriving DecidableEq, Repr

/-- Default `Settings.auto_apply_threshold` (`core/config.py`). -/
def settings_auto_apply_threshold : ℚ := 80

/-- Default `Settings.suggest_threshold` (`core/config.py`). -/
def settings_suggest_threshold : ℚ := 50

/-- `ActionAgent.decide`: the two-threshold decision matrix.  The reason
strings carry the same text as the source; the numeric rendering uses the
rational printer where Python formats a float. -/
def ActionAgent.decide (score : ℚ) (user_profile : UserProfile) : ActionDecision :=
  let auto_threshold := user_profile.auto_apply_threshold.getD settings_auto_apply_threshold
  let suggest_threshold := user_profile.suggest_threshold.getD settings_suggest_threshold
  if auto_threshold ≤ score then
    ⟨"auto_apply", true,
      "Score " ++ toString score ++ " >= auto-apply threshold " ++ toString auto_threshold⟩
  else if suggest_threshold ≤ score then
    ⟨"suggest", false,
      "Score " ++ toString score ++ " >= suggest threshold " ++ toString suggest_threshold⟩
  else
    ⟨"skip", false,
      "Score " ++ toString score ++ " below suggest threshold " ++ toString suggest_threshold⟩

/-- A Python dict with string values, as the tool results and events passed
around `ActionAgent.apply_with_retry` are. -/
abbrev StrDict := List (String × String)

/-- Models `d.get(k)`. -/
def dictGet (d : StrDict) (k : String) : Option String := d.lookup k

/-- Models `d.get(k, fallback)`. -/
def dictGetD (d : StrDict) (k fallback : String) : String := (d.lookup k).getD fallback

/-- The terminal result `apply_with_retry` builds after exhausting retries. -/
def manual_required_result (last_error url : String) : StrDict :=
  [("status", "manual_required"), ("reason", last_error), ("url", url)]

/-- The retry loop body of `ActionAgent.apply_with_retry`.  `oracle i` is the
outcome of the `i`-th call of `apply_to_event` — `.ok` a result dict, or
`.error` the message of a raised exception (the `except` branch).  The second
`Nat` is the number of attempts left (`range(max_retries + 1)`). -/
def retryGo (oracle : Nat → Except String StrDict) (url : String) :
    Nat → Nat → String → StrDict
  | _, 0, last_error => manual_required_result last_error url
  | i, fuel + 1, last_error =>
    match oracle i with
    | .ok result =>
      if dictGet result "status" ≠ some "error" then result
      else retryGo oracle url (i + 1) fuel (dictGetD result "reason" "unknown")
    | .error exc => retryGo oracle url (i + 1) fuel exc

/-- `ActionAgent.apply_with_retry`: up to `max_retries + 1` attempts, first
non-error result returned immediately, terminal `manual_required` result on
total failure.  Total by construction: the embedding of "never raises". -/
def apply_with_retry (oracle : Nat → Except String StrDict) (event : StrDict)
    (max_retries : Nat) : StrDict :=
  retryGo oracle (dictGetD event "url" "") 0 (max_retries + 1) ""

/-- An attempt outcome `apply_with_retry` does not return from: an
error-status result, or a raised exception. -/
def isErrOutcome : Except String StrDict → Bool
  | .error _ => true
  | .ok r => dictGet r "status" == some "error"

/-- The `last_error` string an attempt outcome leaves behind. -/
def errReason : Except String StrDict → String
  | .error e => e
  | .ok r => dictGetD r "reason" "unknown"

/-! ## Deduplicator (`services/deduplication.py`)

`thefuzz.fuzz.ratio` is the rounded normalized InDel similarity
`round(100 * 2 * lcs(a, b) / (len(a) + len(b)))`; the LCS is computed by a
row dynamic program below so that concrete instances evaluate. -/

/-- An event as the deduplicator reads it (`title`, `date`, `description`). -/
structure DedupEvent where
  title : String
  date : Option String
  description : String
deriving DecidableEq, Repr

/-- One cell-by-cell step of the LCS row update. -/
def lcsRowGo (c : Char) : List Char → List Nat → Nat → Nat → List Nat
  | [], _, _, _ => []
  | _ :: _, [], _, _ => []
  | y :: ys, p :: ps, diag, left =>
    let cur := if y = c then diag + 1 else max left p
    cur :: lcsRowGo c ys ps p cur

/-- Next row of the LCS dynamic program. -/
def lcsRow (c : Char) (ys : List Char) (prev : List Nat) : List Nat :=
  0 :: lcsRowGo c ys (prev.drop 1) (prev.headD 0) 0

/-- Length of a longest common subsequence. -/
def lcsLen (xs ys : List Char) : Nat :=
  (xs.foldl (fun row c => lcsRow c ys row) (List.replicate (ys.length + 1) 0)).getLastD 0

/-- Models `thefuzz.fuzz.ratio` (rapidfuzz backend): the rounded normalized
InDel similarity.  Two empty strings rate 100. -/
def fuzz_ratio (a b : String) : ℤ :=
  let total := a.length + b.length
  if total = 0 then 100
  else pyRoundFrac (100 * (2 * (lcsLen a.data b.data : ℤ))) (total : ℤ)

/-- Python truthiness of an optional string (`None` and `""` are falsy). -/
def truthyStr (o : Option String) : Bool :=
  match o with
  | none => false
  | some s => s ≠ ""

/-- `_is_duplicate_event`: fuzzy title match above 80 and compatible dates
(equal when both present, assumed duplicate when either is missing). -/
def _is_duplicate_event (a b : DedupEvent) : Bool :=
  if a.title = "" ∨ b.title = "" then false
  else if fuzz_ratio a.title b.title ≤ 80 then false
  else if truthyStr a.date && truthyStr b.date then a.date == b.date
  else true

/-- The inner loop of `deduplicate_events`: find the first kept item the new
event duplicates; replace it when the new description is longer.  `none`
means no kept item matched. -/
def mergeDuplicate : List DedupEvent → DedupEvent → Option (List DedupEvent)
  | [], _ => none
  | existing :: rest, event =>
    if _is_duplicate_event event existing then
      some ((if existing.description.length < event.description.length then event
             else existing) :: rest)
    else
      match mergeDuplicate rest event with
      | some rest2 => some (existing :: rest2)
      | none => none

/-- One outer-loop step of `deduplicate_events`. -/
def dedup_step (unique : List DedupEvent) (event : DedupEvent) : List DedupEvent :=
  match mergeDuplicate unique event with
  | some merged => merged
  | none => unique ++ [event]

/-- `deduplicate_events`: single pass, each item compared against the already
accepted unique items. -/
def deduplicate_events (events : List DedupEvent) : List DedupEvent :=
  events.foldl dedup_step []

/-- A list with no duplicate pair in either orientation: the condition under
which `deduplicate_events` acts as the identity. -/
def pairwiseNoDupB : List DedupEvent → Bool
  | [] => true
  | e :: rest =>
    rest.all (fun x => !_is_duplicate_event e x && !_is_duplicate_event x e)
      && pairwiseNoDupB rest

/-! ## PreferenceEngine (`services/preference_engine.py`)

The engine state holds the topic-affinity dict (association list), the
avoided-topic set (duplicate-free list), the time-preference dict and the
feedback counter.  The scoring-weight dict the Python object also caches is
not part of the state here: `recalculate_weights` is embedded as the pure
function of the feedback count and history that produces its return value. -/

/-- Engine state (`PreferenceEngine.__init__`). -/
structure PreferenceEngine where
  topic_affinities : List (String × ℚ)
  avoided_topics : List String
  preferred_times : List (String × ℚ)
  feedback_count : Nat
deriving DecidableEq, Repr

/-- Models `d.get(k, fallback)` on a float-valued dict. -/
def lookupD (l : List (String × ℚ)) (k : String) (fallback : ℚ) : ℚ :=
  (l.lookup k).getD fallback

/-- Models `d[k] = v` on a float-valued dict. -/
def setKey (l : List (String × ℚ)) (k : String) (v : ℚ) : List (String × ℚ) :=
  match l with
  | [] => [(k, v)]
  | (k2, v2) :: rest => if k2 = k then (k, v) :: rest else (k2, v2) :: setKey rest k v

/-- Models `set.add`. -/
def setAdd (l : List String) (t : String) : List String :=
  if l.contains t then l else l ++ [t]

/-- Models `set.discard`. -/
def setDiscard (l : List String) (t : String) : List String :=
  l.filter (fun x => x ≠ t)

/-- `ACCEPT_DELTA`. -/
def ACCEPT_DELTA : ℚ := 0.3

/-- `REJECT_DELTA`. -/
def REJECT_DELTA : ℚ := -0.5

/-- `EDIT_DELTA`. -/
def EDIT_DELTA : ℚ := -0.1

/-- `RATE_DELTA_MAP.get(rating, 0.0)`. -/
def RATE_DELTA_MAP (rating : ℤ) : ℚ :=
  if rating = 5 then 0.5
  else if rating = 4 then 0.3
  else if rating = 3 then 0
  else if rating = 2 then -0.3
  else if rating = 1 then -0.5
  else 0

/-- `PreferenceEngine.adjust_topic_affinity`: clamp to [-1, 1]; avoided set
entered below -0.5, left at or above -0.3. -/
def adjust_topic_affinity (s : PreferenceEngine) (topic : String) (delta : ℚ) :
    PreferenceEngine :=
  let current := lookupD s.topic_affinities topic 0
  let new_val := max (-1) (min 1 (current + delta))
  let affinities := setKey s.topic_affinities topic new_val
  let avoided :=
    if new_val < -0.5 then setAdd s.avoided_topics topic
    else if s.avoided_topics.contains topic ∧ -0.3 ≤ new_val then
      setDiscard s.avoided_topics topic
    else s.avoided_topics
  { s with topic_affinities := affinities, avoided_topics := avoided }

/-- `PreferenceEngine.get_topic_affinity`. -/
def get_topic_affinity (s : PreferenceEngine) (topic : String) : ℚ :=
  lookupD s.topic_affinities topic 0

/-- `PreferenceEngine.is_topic_avoided`. -/
def is_topic_avoided (s : PreferenceEngine) (topic : String) : Bool :=
  s.avoided_topics.contains topic

/-- `_extract_day`: weekday name from an ISO datetime string, `""` on a parse
failure. -/
def _extract_day (event_time : String) : String :=
  match parseISO (event_time.replace "Z" "+00:00") with
  | some dt => dayOfWeekName dt.year dt.month dt.day
  | none => ""

/-- `PreferenceEngine.update_time_preferences`. -/
def update_time_preferences (s : PreferenceEngine) (event_time : String)
    (negative : Bool) : PreferenceEngine :=
  let day := _extract_day event_time
  if day = "" then s
  else
    let current := lookupD s.preferred_times day 0
    let delta : ℚ := if negative then -0.3 else 0.2
    { s with preferred_times := setKey s.preferred_times day (max (-1) (min 1 (current + delta))) }

/-- A feedback signal as `process_feedback` reads it (dict `get` calls with
their defaults). -/
structure Feedback where
  action : String
  topics : List String
  event_type : String
  reason : String
  rating : Option ℤ
  event_time : String
  price : Option ℚ
deriving DecidableEq, Repr

/-- `PreferenceEngine.process_feedback`: route by action, adjust affinities.
The `too_expensive` branch only logs (`lower_budget_threshold`), so it leaves
the state unchanged. -/
def process_feedback (s : PreferenceEngine) (feedback : Feedback) : PreferenceEngine :=
  let s := { s with feedback_count := s.feedback_count + 1 }
  if feedback.action = "accept" then
    feedback.topics.foldl (fun st t => adjust_topic_affinity st t ACCEPT_DELTA) s
  else if feedback.action = "reject" then
    let s := feedback.topics.foldl (fun st t => adjust_topic_affinity st t REJECT_DELTA) s
    if feedback.reason = "not_my_industry" then
      feedback.topics.foldl (fun st t => adjust_topic_affinity st t REJECT_DELTA) s
    else if feedback.reason = "bad_timing" ∧ feedback.event_time ≠ "" then
      update_time_preferences s feedback.event_time true
    else s
  else if feedback.action = "edit" then
    feedback.topics.foldl (fun st t => adjust_topic_affinity st t EDIT_DELTA) s
  else if feedback.action = "rate" then
    match feedback.rating with
    | some r => feedback.topics.foldl (fun st t => adjust_topic_affinity st t (RATE_DELTA_MAP r)) s
    | none => s
  else s

/-- The five scoring dimensions. -/
inductive Dim
  | topic
  | people
  | event_type
  | time
  | historical
deriving DecidableEq, Repr

/-- A weight mapping: one integer per dimension, in the dict insertion order
topic, people, event_type, time, historical. -/
structure Weights where
  topic : ℤ
  people : ℤ
  event_type : ℤ
  time : ℤ
  historical : ℤ
deriving DecidableEq, Repr

/-- Weight of one dimension. -/
def Weights.get (w : Weights) : Dim → ℤ
  | .topic => w.topic
  | .people => w.people
  | .event_type => w.event_type
  | .time => w.time
  | .historical => w.historical

/-- `INITIAL_WEIGHTS`. -/
def INITIAL_WEIGHTS : Weights := ⟨30, 25, 15, 15, 15⟩

/-- A feedback-history record as `_compute_dimension_variance` reads it
(`fb.get("<dim>_score", 0)` and `fb.get("action")`). -/
structure FeedbackRecord where
  action : String
  topic_score : ℚ
  people_score : ℚ
  event_type_score : ℚ
  time_score : ℚ
  historical_score : ℚ
deriving DecidableEq, Repr

/-- Per-dimension sub-score of a history record. -/
def dimensionScore (d : Dim) (fb : FeedbackRecord) : ℚ :=
  match d with
  | .topic => fb.topic_score
  | .people => fb.people_score
  | .event_type => fb.event_type_score
  | .time => fb.time_score
  | .historical => fb.historical_score

/-- `PreferenceEngine._compute_dimension_variance`: mean accepted sub-score
minus mean rejected sub-score, clamped to [-10, 10]; 0 when the history or
either group is empty. -/
def _compute_dimension_variance (d : Dim) (history : List FeedbackRecord) : ℚ :=
  if history.isEmpty then 0 else
  let accepted_scores := (history.filter (fun fb => fb.action == "accept")).map (dimensionScore d)
  let rejected_scores := (history.filter (fun fb => fb.action == "reject")).map (dimensionScore d)
  if accepted_scores.isEmpty ∨ rejected_scores.isEmpty then 0 else
  let avg_accept := accepted_scores.sum / accepted_scores.length
  let avg_reject := rejected_scores.sum / rejected_scores.length
  max (-10) (min 10 (avg_accept - avg_reject))

/-- Models `max(self.weights, key=lambda k: self.weights[k])`: Python `max`
keeps the first key of maximal value in dict insertion order, replacing the
running best only on a strictly greater value. -/
def largestDim (w : Weights) : Dim :=
  let d2 := if w.topic < w.people then Dim.people else Dim.topic
  let v2 := if w.topic < w.people then w.people else w.topic
  let d3 := if v2 < w.event_type then Dim.event_type else d2
  let v3 := if v2 < w.event_type then w.event_type else v2
  let d4 := if v3 < w.time then Dim.time else d3
  let v4 := if v3 < w.time then w.time else v3
  if v4 < w.historical then Dim.historical else d4

/-- Models `weights[largest] += diff`. -/
def addToDim (w : Weights) (d : Dim) (diff : ℤ) : Weights :=
  match d with
  | .topic => { w with topic := w.topic + diff }
  | .people => { w with people := w.people + diff }
  | .event_type => { w with event_type := w.event_type + diff }
  | .time => { w with time := w.time + diff }
  | .historical => { w with historical := w.historical + diff }

/-- The percentage-normalization line of `recalculate_weights`:
`{k: max(5, round(v / total * 100)) for k, v in raw.items()}`. -/
def roundWeights (raw_topic raw_people raw_event_type raw_time raw_historical : ℚ) :
    Weights :=
  let total := raw_topic + raw_people + raw_event_type + raw_time + raw_historical
  ⟨max 5 (pyRound (raw_topic / total * 100)),
   max 5 (pyRound (raw_people / total * 100)),
   max 5 (pyRound (raw_event_type / total * 100)),
   max 5 (pyRound (raw_time / total * 100)),
   max 5 (pyRound (raw_historical / total * 100))⟩

/-- The remainder-absorbing tail of `recalculate_weights`:
`diff = 100 - sum(...); if diff != 0: weights[largest] += diff`. -/
def absorbDiff (w : Weights) : Weights :=
  let diff := 100 - (w.topic + w.people + w.event_type + w.time + w.historical)
  if diff = 0 then w else addToDim w (largestDim w) diff

/-- The rebalancing tail of `recalculate_weights` on the five floored raw
weights: normalize to percentages with a floor of 5, then absorb the rounding
remainder into the largest weight (when the remainder is nonzero). -/
def normalizeWeights (raw_topic raw_people raw_event_type raw_time raw_historical : ℚ) :
    Weights :=
  absorbDiff (roundWeights raw_topic raw_people raw_event_type raw_time raw_historical)

/-- `PreferenceEngine.recalculate_weights`: initial weights below 5 feedback
signals; otherwise base weights plus clamped per-dimension deltas, floored at
5 (`max(5.0, raw[k])`) and rebalanced to a sum of exactly 100. -/
def recalculate_weights (feedback_count : Nat) (history : List FeedbackRecord) : Weights :=
  if feedback_count < 5 then INITIAL_WEIGHTS
  else
    normalizeWeights
      (max 5 (30 + _compute_dimension_variance .topic history))
      (max 5 (25 + _compute_dimension_variance .people history))
      (max 5 (15 + _compute_dimension_variance .event_type history))
      (max 5 (15 + _compute_dimension_variance .time history))
      (max 5 (15 + _compute_dimension_variance .historical history))

/-- One engine operation: a feedback signal or a direct affinity adjustment. -/
inductive PEOp
  | feedback (fb : Feedback)
  | adjust (topic : String) (delta : ℚ)

/-- A fresh engine (`PreferenceEngine.__init__`). -/
def initEngine : PreferenceEngine := ⟨[], [], [], 0⟩

/-- Apply one operation. -/
def applyOp (s : PreferenceEngine) : PEOp → PreferenceEngine
  | .feedback fb => process_feedback s fb
  | .adjust t d => adjust_topic_affinity s t d

/-- Run a sequence of operations from a fresh engine. -/
def runPE (ops : List PEOp) : PreferenceEngine := ops.foldl applyOp initEngine

/-- The affinity/avoided-set invariant of the preference engine: every
affinity is clamped to [-1, 1], every topic below -0.5 is avoided, and no
topic at or above -0.3 is avoided. -/
def EngineInv (s : PreferenceEngine) : Prop :=
  ∀ t : String,
    (-1 ≤ get_topic_affinity s t ∧ get_topic_affinity s t ≤ 1)
    ∧ (get_topic_affinity s t < -0.5 → is_topic_avoided s t = true)
    ∧ (-0.3 ≤ get_topic_affinity s t → is_topic_avoided s t = false)

/-! ## NexusAgent safety gate (`agents/orchestrator.py`)

`execute_tool` is embedded over the agent counters, with the wall-clock UTC
date and the outcome of `_dispatch_tool` (a result dict, or the message of a
raised exception) passed as parameters.  The websocket broadcaster is
modelled as absent (`ws_broadcast=None`): it only emits UI events and does
not influence the gate or the counters. -/

/-- `NexusMode` (`core/config.py`). -/
inductive NexusMode
  | dry_run
  | replay
  | canary
  | live
deriving DecidableEq, Repr

/-- The `.value` string of a mode. -/
def NexusMode.value : NexusMode → String
  | .dry_run => "dry_run"
  | .replay => "replay"
  | .canary => "canary"
  | .live => "live"

/-- `NexusAgent.allow_side_effects`. -/
def allow_side_effects (mode : NexusMode) : Bool :=
  mode == .canary || mode == .live

/-- `_SIDE_EFFECT_TOOLS`. -/
def SIDE_EFFECT_TOOLS : List String :=
  ["yutori_browse", "yutori_scout", "google_calendar", "notify_user"]

/-- The two safety limits of `Settings` (env-overridable; kept abstract). -/
structure SafetyConfig where
  max_auto_applies_per_day : Nat
  max_auto_send_messages_per_day : Nat
deriving DecidableEq, Repr

/-- The daily counters of `NexusAgent`. -/
structure AgentCounters where
  applies_today : Nat
  messages_today : Nat
  last_reset_date : String
deriving DecidableEq, Repr

/-- Counter state at construction (`NexusAgent.__init__`). -/
def initCounters : AgentCounters := ⟨0, 0, ""⟩

/-- `NexusAgent._reset_daily_counters_if_needed`. -/
def _reset_daily_counters_if_needed (s : AgentCounters) (today : String) : AgentCounters :=
  if s.last_reset_date ≠ today then ⟨0, 0, today⟩ else s

/-- `NexusAgent._check_canary_limits`: pass in every non-canary mode; in
canary, lazily reset the counters, then enforce the two daily quotas.
Returns the (possibly reset) counters with the verdict. -/
def _check_canary_limits (cfg : SafetyConfig) (mode : NexusMode) (s : AgentCounters)
    (today tool_name : String) : AgentCounters × Bool :=
  if mode ≠ .canary then (s, true)
  else
    let s := _reset_daily_counters_if_needed s today
    if tool_name = "yutori_browse" ∧ cfg.max_auto_applies_per_day ≤ s.applies_today then
      (s, false)
    else if tool_name = "notify_user" ∧ cfg.max_auto_send_messages_per_day ≤ s.messages_today then
      (s, false)
    else (s, true)

/-- The blocked result of the dry_run/replay gate. -/
def blocked_mode_result (mode : NexusMode) : StrDict :=
  [("status", "blocked"), ("reason", "Side effects disabled in " ++ mode.value ++ " mode")]

/-- The blocked result of the canary quota gate. -/
def blocked_canary_result : StrDict :=
  [("status", "blocked"), ("reason", "Daily limit reached in canary mode")]

/-- The post-gate body of `execute_tool`: dispatch, increment the apply
counter on a successful `yutori_browse`, convert a raised exception into the
`{"error": ..., "tool": ...}` result. -/
def afterGate (s : AgentCounters) (tool_name : String) (dispatch : Except String StrDict) :
    StrDict × AgentCounters :=
  match dispatch with
  | .ok result =>
    if tool_name = "yutori_browse" then
      (result, { s with applies_today := s.applies_today + 1 })
    else (result, s)
  | .error e => ([("error", e), ("tool", tool_name)], s)

/-- `NexusAgent.execute_tool`: the mode gate, then the canary quota gate,
then the dispatch. -/
def execute_tool (cfg : SafetyConfig) (mode : NexusMode) (s : AgentCounters)
    (today tool_name : String) (dispatch : Except String StrDict) :
    StrDict × AgentCounters :=
  if SIDE_EFFECT_TOOLS.contains tool_name ∧ ¬allow_side_effects mode then
    (blocked_mode_result mode, s)
  else
    let checked := _check_canary_limits cfg mode s today tool_name
    if checked.2 then afterGate checked.1 tool_name dispatch
    else (blocked_canary_result, checked.1)

/-- Both gates of `execute_tool` let the call through to `_dispatch_tool`. -/
def gate_passes (cfg : SafetyConfig) (mode : NexusMode) (s : AgentCounters)
    (today tool_name : String) : Bool :=
  !(SIDE_EFFECT_TOOLS.contains tool_name && !allow_side_effects mode)
    && (_check_canary_limits cfg mode s today tool_name).2

/-- One tool call of an agent run: the UTC date at call time, the tool name
and the dispatch outcome. -/
structure ToolCall where
  today : String
  tool_name : String
  dispatch : Except String StrDict

/-- Counter state after a sequence of `execute_tool` calls from a fresh
agent. -/
def runAgent (cfg : SafetyConfig) (mode : NexusMode) (calls : List ToolCall) : AgentCounters :=
  calls.foldl (fun s c => (execute_tool cfg mode s c.today c.tool_name c.dispatch).2) initCounters

/-! # Theorems -/

/-! ## Shared bound lemmas for the scorer -/

theorem score_topics_bounds (event_topics user_interests : List String) :
    0 ≤ _score_topics event_topics user_interests
      ∧ _score_topics event_topics user_interests ≤ 30 := by
  simp only [_score_topics]
  split_ifs
  · norm_num
  · exact ⟨le_min (by norm_num) (by positivity), min_le_left _ _⟩

theorem speakerStep_ge (tc tr : List String) (points : ℚ) (sp : Speaker) :
    points ≤ speakerStep tc tr points sp := by
  simp only [speakerStep]
  split_ifs <;> linarith

theorem foldl_speakerStep_ge (tc tr : List String) (l : List Speaker) :
    ∀ points : ℚ, points ≤ l.foldl (speakerStep tc tr) points := by
  induction l with
  | nil => intro p; simp
  | cons s t ih =>
    intro p
    simpa using le_trans (speakerStep_ge tc tr p s) (ih _)

theorem score_people_bounds (speakers : List Speaker) (user_profile : UserProfile) :
    0 ≤ _score_people speakers user_profile ∧ _score_people speakers user_profile ≤ 25 := by
  simp only [_score_people]
  split_ifs
  · norm_num
  · norm_num
  · exact ⟨le_min (by norm_num) (foldl_speakerStep_ge _ _ _ 0), min_le_left _ _⟩

theorem score_event_type_bounds (event_type : String) (preferred_types : List String) :
    0 ≤ _score_event_type event_type preferred_types
      ∧ _score_event_type event_type preferred_types ≤ 15 := by
  simp only [_score_event_type]
  split_ifs <;> norm_num

theorem score_time_bounds (date_str : Option String) (preferred_days preferred_times : List String) :
    0 ≤ _score_time date_str preferred_days preferred_times
      ∧ _score_time date_str preferred_days preferred_times ≤ 15 := by
  rcases date_str with _ | s
  · norm_num [_score_time]
  · simp only [_score_time]
    by_cases hs : s = ""
    · rw [if_pos hs]; norm_num
    · rw [if_neg hs]
      cases hP : parseISO s
      · norm_num
      · refine ⟨le_min (by norm_num) (add_nonneg ?_ ?_), min_le_left _ _⟩ <;>
          split_ifs <;> norm_num

/-- C2: for every item and profile, each dimension sub-score is non-negative
and self-capped (topic at most 30, people at most 25, category at most 15,
timing at most 15, historical exactly 7.5) and `calculate_relevance` lies in
[0, 100] after the final clamp. -/
theorem calculate_relevance_in_range (enriched : EventItem) (user_profile : UserProfile) :
    (0 ≤ _score_topics enriched.topics user_profile.interests
      ∧ _score_topics enriched.topics user_profile.interests ≤ 30)
    ∧ (0 ≤ _score_people enriched.speakers user_profile
      ∧ _score_people enriched.speakers user_profile ≤ 25)
    ∧ (0 ≤ _score_event_type enriched.event_type user_profile.preferred_event_types
      ∧ _score_event_type enriched.event_type user_profile.preferred_event_types ≤ 15)
    ∧ (0 ≤ _score_time enriched.date user_profile.preferred_days user_profile.preferred_times
      ∧ _score_time enriched.date user_profile.preferred_days user_profile.preferred_times ≤ 15)
    ∧ _score_historical enriched user_profile = 7.5
    ∧ (0 ≤ calculate_relevance enriched user_profile
      ∧ calculate_relevance enriched user_profile ≤ 100) := by
  refine ⟨score_topics_bounds _ _, score_people_bounds _ _, score_event_type_bounds _ _,
    score_time_bounds _ _ _, rfl, le_max_left 0 _, ?_⟩
  simp only [calculate_relevance]
  exact max_le (by norm_num) (min_le_left _ _)

/-- C3: with the default thresholds (auto 80, suggest 50, whether absent from
the profile or explicitly equal to the system defaults), `decide` maps a
score of at least 80 to auto_apply with scheduling, a score in [50, 80) to
suggest without scheduling, and a score below 50 to skip. -/
theorem decide_threshold_cases (score : ℚ) (user_profile : UserProfile)
    (hauto : user_profile.auto_apply_threshold.getD settings_auto_apply_threshold = 80)
    (hsugg : user_profile.suggest_threshold.getD settings_suggest_threshold = 50) :
    (80 ≤ score →
      (ActionAgent.decide score user_profile).action = "auto_apply"
        ∧ (ActionAgent.decide score user_profile).should_schedule = true)
    ∧ (50 ≤ score → score < 80 →
      (ActionAgent.decide score user_profile).action = "suggest"
        ∧ (ActionAgent.decide score user_profile).should_schedule = false)
    ∧ (score < 50 →
      (ActionAgent.decide score user_profile).action = "skip"
        ∧ (ActionAgent.decide score user_profile).should_schedule = false) := by
  simp only [ActionAgent.decide, hauto, hsugg]
  refine ⟨fun h1 => ?_, fun h1 h2 => ?_, fun h1 => ?_⟩ <;>
    split_ifs with ha hb <;> first | exact ⟨rfl, rfl⟩ | linarith

/-- Witness for C3 at score 90 and a profile carrying no thresholds. -/
theorem decide_threshold_cases_witness :
    (ActionAgent.decide 90 ⟨[], [], [], [], [], [], none, none⟩).action = "auto_apply"
      ∧ (ActionAgent.decide 90 ⟨[], [], [], [], [], [], none, none⟩).should_schedule = true :=
  (decide_threshold_cases 90 ⟨[], [], [], [], [], [], none, none⟩ rfl rfl).1 (by norm_num)

/-! ## C8: the people dimension accumulates per speaker -/

theorem speakerStep_eq_add (tc tr : List String) (points : ℚ) (sp : Speaker) :
    speakerStep tc tr points sp = points + speakerPoints tc tr sp := by
  simp only [speakerStep, speakerPoints]
  split_ifs <;> ring

theorem foldl_speakerStep_sum (tc tr : List String) (l : List Speaker) :
    ∀ points : ℚ,
      l.foldl (speakerStep tc tr) points = points + (l.map (speakerPoints tc tr)).sum := by
  induction l with
  | nil => intro p; simp
  | cons s t ih =>
    intro p
    simp only [List.foldl_cons, List.map_cons, List.sum_cons, speakerStep_eq_add, ih]
    ring

/-- C8 counterexample: two speakers from the same target company.  The source
`_score_people` accumulates +12.5 for each of them and scores 25; the claim's
reading — a single +12.5 because SOME speaker's company matches, with no role
match — yields 12.5. -/
theorem score_people_claim_counterexample :
    _score_people [⟨some "acme", none⟩, ⟨some "acme", none⟩]
        ⟨[], ["acme"], [], [], [], [], none, none⟩ = 25
    ∧ score_people_claim [⟨some "acme", none⟩, ⟨some "acme", none⟩]
        ⟨[], ["acme"], [], [], [], [], none, none⟩ = 12.5 := by
  constructor
  · have hstep : ∀ p : ℚ,
        speakerStep (List.map pyLower ["acme"]) (List.map pyLower ([] : List String)) p
          ⟨some "acme", none⟩ = p + 12.5 := by
      intro p
      simp only [speakerStep]
      rw [if_neg (by decide), if_pos (by decide)]
    simp only [_score_people]
    rw [if_neg (by decide), if_neg (by decide)]
    simp only [List.foldl_cons, List.foldl_nil, hstep]
    norm_num [min_def]
  · simp only [score_people_claim]
    rw [if_neg (by decide), if_neg (by decide), if_pos (by decide), if_neg (by decide)]
    norm_num [min_def]

/-- C8 amended: the people score is 0 without speakers or without targets;
otherwise every speaker contributes +12.5 for a company match and +12.5 for
a role match, the contributions are summed over the speakers, and the total
is capped at 25 (so it always lies in [0, 25]). -/
theorem score_people_per_speaker (speakers : List Speaker) (user_profile : UserProfile) :
    (speakers.isEmpty = true → _score_people speakers user_profile = 0)
    ∧ (user_profile.target_companies.isEmpty = true →
        user_profile.target_roles.isEmpty = true →
        _score_people speakers user_profile = 0)
    ∧ (speakers.isEmpty = false →
        (user_profile.target_companies.isEmpty = true ∧
            user_profile.target_roles.isEmpty = true → False) →
        _score_people speakers user_profile
          = min 25 ((speakers.map (speakerPoints (user_profile.target_companies.map pyLower)
              (user_profile.target_roles.map pyLower))).sum))
    ∧ (0 ≤ _score_people speakers user_profile ∧ _score_people speakers user_profile ≤ 25) := by
  refine ⟨?_, ?_, ?_, score_people_bounds _ _⟩
  · intro h
    simp only [_score_people]
    rw [if_pos h]
  · intro h1 h2
    simp only [_score_people]
    rw [List.isEmpty_iff] at h1 h2
    split_ifs with hs hc
    · rfl
    · rfl
    · exact absurd ⟨by simp [h1], by simp [h2]⟩ hc
  · intro h1 h2
    simp only [_score_people]
    rw [List.isEmpty_iff] at *
    rw [if_neg (by simp [h1]), if_neg (by
      intro hc
      rcases hc with ⟨hc1, hc2⟩
      rw [List.isEmpty_iff, List.map_eq_nil_iff] at hc1 hc2
      exact h2 ⟨by simp [hc1], by simp [hc2]⟩)]
    rw [foldl_speakerStep_sum]
    ring_nf

/-- Witness for the amended C8 at one company-matching speaker. -/
theorem score_people_per_speaker_witness :
    _score_people [⟨some "acme", none⟩] ⟨[], ["acme"], [], [], [], [], none, none⟩
      = min 25 (([(⟨some "acme", none⟩ : Speaker)].map
          (speakerPoints (["acme"].map pyLower) (([] : List String).map pyLower))).sum) :=
  (score_people_per_speaker [⟨some "acme", none⟩]
    ⟨[], ["acme"], [], [], [], [], none, none⟩).2.2.1 (by decide) (by decide)

/-! ## C4: deduplication and idempotence -/

theorem mergeDuplicate_eq_none (u : List DedupEvent) (e : DedupEvent)
    (h : ∀ x ∈ u, _is_duplicate_event e x = false) : mergeDuplicate u e = none := by
  induction u with
  | nil => rfl
  | cons a t ih =>
    have ha : _is_duplicate_event e a = false := h a (List.mem_cons_self a t)
    have ht := ih (fun x hx => h x (List.mem_cons_of_mem a hx))
    simp [mergeDuplicate, ha, ht]

theorem foldl_dedup_step_no_dup (ys : List DedupEvent) :
    ∀ u : List DedupEvent,
      (∀ e ∈ ys, ∀ x ∈ u, _is_duplicate_event e x = false) →
      pairwiseNoDupB ys = true →
      List.foldl dedup_step u ys = u ++ ys := by
  induction ys with
  | nil => intro u _ _; simp
  | cons e t ih =>
    intro u h1 h2
    simp only [pairwiseNoDupB, Bool.and_eq_true, List.all_eq_true,
      Bool.not_eq_true'] at h2
    have he : mergeDuplicate u e = none :=
      mergeDuplicate_eq_none u e (h1 e (List.mem_cons_self e t))
    have hstep : dedup_step u e = u ++ [e] := by simp [dedup_step, he]
    simp only [List.foldl_cons, hstep]
    rw [ih (u ++ [e]) ?_ h2.2]
    · simp
    · intro e2 he2 x hx
      rcases List.mem_append.1 hx with hxu | hxe
      · exact h1 e2 (List.mem_cons_of_mem e he2) x hxu
      · have hxe2 : x = e := by simpa using hxe
        subst hxe2
        exact (h2.1 e2 he2).2

/-- C4 counterexample: three events with pairwise similarities 80 (A-B),
90 (A-C) and 90 (B-C) and no dates.  The single pass keeps A, accepts B (80
is not above the threshold), then merges C over A (longer description),
leaving [C, B] — which are mutual duplicates, so a second pass merges them:
`dedupe(dedupe(X))` has one event where `dedupe(X)` has two. -/
theorem deduplicate_events_not_idempotent :
    deduplicate_events (deduplicate_events
        [⟨"aaaaaaaaaa", none, ""⟩, ⟨"aacaabaaaa", none, ""⟩, ⟨"aaaaabaaaa", none, "z"⟩])
      ≠ deduplicate_events
        [⟨"aaaaaaaaaa", none, ""⟩, ⟨"aacaabaaaa", none, ""⟩, ⟨"aaaaabaaaa", none, "z"⟩] := by
  decide

/-- C4 amended: `deduplicate_events` is idempotent on every input whose
single-pass output contains no duplicate pair — the replacement merge is the
only way idempotence can fail, by leaving two mutually-duplicate items in the
output. -/
theorem deduplicate_events_idempotent_of_noDup (events : List DedupEvent)
    (h : pairwiseNoDupB (deduplicate_events events) = true) :
    deduplicate_events (deduplicate_events events) = deduplicate_events events := by
  have hfold := foldl_dedup_step_no_dup (deduplicate_events events) []
    (by intro e _ x hx; simp at hx) h
  simpa [deduplicate_events] using hfold

/-- Witness for the amended C4: two near-duplicate titles merge to one event
and the output is trivially pairwise non-duplicate. -/
theorem deduplicate_events_idempotent_witness :
    pairwiseNoDupB (deduplicate_events
        [⟨"ai dinner sf", none, "x"⟩, ⟨"ai dinner sf!", none, "longer"⟩]) = true
    ∧ deduplicate_events (deduplicate_events
        [⟨"ai dinner sf", none, "x"⟩, ⟨"ai dinner sf!", none, "longer"⟩])
      = deduplicate_events
        [⟨"ai dinner sf", none, "x"⟩, ⟨"ai dinner sf!", none, "longer"⟩] :=
  ⟨by decide, deduplicate_events_idempotent_of_noDup _ (by decide)⟩

/-! ## C7: the retry policy of `apply_with_retry` -/

theorem retryGo_ok (oracle : Nat → Except String StrDict) (url : String)
    (i fuel : Nat) (last : String) (r : StrDict) (h : oracle i = .ok r) :
    retryGo oracle url i (fuel + 1) last
      = if dictGet r "status" ≠ some "error" then r
        else retryGo oracle url (i + 1) fuel (dictGetD r "reason" "unknown") := by
  simp only [retryGo, h]

theorem retryGo_err (oracle : Nat → Except String StrDict) (url : String)
    (i fuel : Nat) (last e : String) (h : oracle i = .error e) :
    retryGo oracle url i (fuel + 1) last = retryGo oracle url (i + 1) fuel e := by
  simp only [retryGo, h]

theorem retryGo_congr (oracle oracle2 : Nat → Except String StrDict) (url : String) :
    ∀ (fuel i : Nat) (last : String),
      (∀ j, i ≤ j → j < i + fuel → oracle j = oracle2 j) →
      retryGo oracle url i fuel last = retryGo oracle2 url i fuel last := by
  intro fuel
  induction fuel with
  | zero => intro i last _; rfl
  | succ f ih =>
    intro i last h
    have hi : oracle i = oracle2 i := h i le_rfl (by omega)
    have hnext : ∀ j, i + 1 ≤ j → j < i + 1 + f → oracle j = oracle2 j :=
      fun j hj1 hj2 => h j (by omega) (by omega)
    cases ho : oracle2 i with
    | ok r =>
      rw [retryGo_ok oracle url i f last r (hi.trans ho),
        retryGo_ok oracle2 url i f last r ho]
      split_ifs
      · rfl
      · exact ih (i + 1) _ hnext
    | error e =>
      rw [retryGo_err oracle url i f last e (hi.trans ho),
        retryGo_err oracle2 url i f last e ho]
      exact ih (i + 1) _ hnext

theorem retryGo_all_err (oracle : Nat → Except String StrDict) (url : String) :
    ∀ (fuel i : Nat) (last : String),
      (∀ j, i ≤ j → j < i + fuel + 1 → isErrOutcome (oracle j) = true) →
      retryGo oracle url i (fuel + 1) last
        = manual_required_result (errReason (oracle (i + fuel))) url := by
  intro fuel
  induction fuel with
  | zero =>
    intro i last h
    have hi : isErrOutcome (oracle i) = true := h i le_rfl (by omega)
    rw [Nat.add_zero]
    cases ho : oracle i with
    | ok r =>
      rw [ho] at hi
      simp only [isErrOutcome, beq_iff_eq] at hi
      rw [retryGo_ok oracle url i 0 last r ho, if_neg (by simp [hi])]
      simp [retryGo, errReason, ho]
    | error e =>
      rw [retryGo_err oracle url i 0 last e ho]
      simp [retryGo, errReason, ho]
  | succ f ih =>
    intro i last h
    have hi : isErrOutcome (oracle i) = true := h i le_rfl (by omega)
    have hnext : ∀ j, i + 1 ≤ j → j < i + 1 + f + 1 → isErrOutcome (oracle j) = true :=
      fun j hj1 hj2 => h j (by omega) (by omega)
    have harith : i + 1 + f = i + (f + 1) := by omega
    cases ho : oracle i with
    | ok r =>
      rw [ho] at hi
      simp only [isErrOutcome, beq_iff_eq] at hi
      rw [retryGo_ok oracle url i (f + 1) last r ho, if_neg (by simp [hi]),
        ih (i + 1) _ hnext, harith]
    | error e =>
      rw [retryGo_err oracle url i (f + 1) last e ho, ih (i + 1) _ hnext, harith]

theorem retryGo_first_ok (oracle : Nat → Except String StrDict) (url : String) :
    ∀ (fuel k i : Nat) (last : String) (r : StrDict),
      k < fuel →
      (∀ j, i ≤ j → j < i + k → isErrOutcome (oracle j) = true) →
      oracle (i + k) = .ok r →
      isErrOutcome (Except.ok r) = false →
      retryGo oracle url i fuel last = r := by
  intro fuel
  induction fuel with
  | zero => intro k i last r hk; omega
  | succ f ih =>
    intro k i last r hk herr hok hstat
    simp only [isErrOutcome, beq_eq_false_iff_ne, ne_eq] at hstat
    cases k with
    | zero =>
      rw [Nat.add_zero] at hok
      rw [retryGo_ok oracle url i f last r hok, if_pos (by simpa [dictGet] using hstat)]
    | succ k2 =>
      have hi : isErrOutcome (oracle i) = true := herr i le_rfl (by omega)
      have hnexterr : ∀ j, i + 1 ≤ j → j < i + 1 + k2 → isErrOutcome (oracle j) = true :=
        fun j hj1 hj2 => herr j (by omega) (by omega)
      have hnextok : oracle (i + 1 + k2) = .ok r := by
        rw [show i + 1 + k2 = i + (k2 + 1) by omega]; exact hok
      have hstatB : isErrOutcome (Except.ok r) = false := by
        simp [isErrOutcome, beq_eq_false_iff_ne, ne_eq]; exact hstat
      cases ho : oracle i with
      | ok res =>
        rw [ho] at hi
        simp only [isErrOutcome, beq_iff_eq] at hi
        rw [retryGo_ok oracle url i f last res ho, if_neg (by simp [hi])]
        exact ih k2 (i + 1) _ r (by omega) hnexterr hnextok hstatB
      | error e =>
        rw [retryGo_err oracle url i f last e ho]
        exact ih k2 (i + 1) _ r (by omega) hnexterr hnextok hstatB

/-- C7: `apply_with_retry` with `max_retries = N` reads at most the outcomes
of attempts 0..N (so it attempts `apply_to_event` at most N+1 times); it
returns the first result whose status is not "error" as soon as one occurs;
and when every attempt fails — an error-status result or a raised
exception — it returns the terminal manual_required result carrying the
reason of the last error and the event URL.  It is a total function: the
embedding of "never raises". -/
theorem apply_with_retry_spec (oracle : Nat → Except String StrDict) (event : StrDict)
    (max_retries : Nat) :
    (∀ oracle2 : Nat → Except String StrDict,
      (∀ i, i ≤ max_retries → oracle i = oracle2 i) →
      apply_with_retry oracle event max_retries = apply_with_retry oracle2 event max_retries)
    ∧ ((∀ i, i ≤ max_retries → isErrOutcome (oracle i) = true) →
      apply_with_retry oracle event max_retries
        = manual_required_result (errReason (oracle max_retries)) (dictGetD event "url" ""))
    ∧ (∀ i r, i ≤ max_retries →
      (∀ j, j < i → isErrOutcome (oracle j) = true) →
      oracle i = .ok r →
      isErrOutcome (Except.ok r) = false →
      apply_with_retry oracle event max_retries = r) := by
  refine ⟨?_, ?_, ?_⟩
  · intro oracle2 h
    exact retryGo_congr oracle oracle2 _ (max_retries + 1) 0 ""
      (fun j _ hj2 => h j (by omega))
  · intro h
    have hfold := retryGo_all_err oracle (dictGetD event "url" "") max_retries 0 ""
      (fun j _ hj2 => h j (by omega))
    simpa [apply_with_retry] using hfold
  · intro i r hi herr hok hstat
    exact retryGo_first_ok oracle _ (max_retries + 1) i 0 "" r (by omega)
      (fun j _ hj2 => herr j (by omega)) (by simpa using hok) hstat

/-- Witness for C7: an oracle whose every attempt raises.  Three attempts
(max_retries = 2) end in the manual_required hand-off with the last raised
message and the event URL. -/
theorem apply_with_retry_spec_witness :
    apply_with_retry (fun _ => Except.error "boom") [("url", "https://ev")] 2
      = manual_required_result "boom" "https://ev" :=
  (apply_with_retry_spec (fun _ => Except.error "boom") [("url", "https://ev")] 2).2.1
    (fun i _ => rfl)

/-! ## C1, C9, C10: the safety gate of `execute_tool` -/

theorem check_canary_skip (cfg : SafetyConfig) (mode : NexusMode) (s : AgentCounters)
    (today tool_name : String) (h : mode ≠ NexusMode.canary) :
    _check_canary_limits cfg mode s today tool_name = (s, true) := by
  simp [_check_canary_limits, h]

theorem check_canary_state (cfg : SafetyConfig) (s : AgentCounters) (today tool_name : String) :
    (_check_canary_limits cfg NexusMode.canary s today tool_name).1
      = _reset_daily_counters_if_needed s today := by
  simp only [_check_canary_limits]
  rw [if_neg (fun hc => hc rfl)]
  split_ifs <;> rfl

theorem check_canary_blocked (cfg : SafetyConfig) (s : AgentCounters) (today tool_name : String)
    (h : (tool_name = "yutori_browse" ∧ cfg.max_auto_applies_per_day
            ≤ (_reset_daily_counters_if_needed s today).applies_today)
      ∨ (tool_name = "notify_user" ∧ cfg.max_auto_send_messages_per_day
            ≤ (_reset_daily_counters_if_needed s today).messages_today)) :
    _check_canary_limits cfg NexusMode.canary s today tool_name
      = (_reset_daily_counters_if_needed s today, false) := by
  simp only [_check_canary_limits]
  rw [if_neg (fun hc => hc rfl)]
  split_ifs with h1 h2
  · rfl
  · rfl
  · rcases h with h | h
    · exact absurd h h1
    · exact absurd h h2

theorem check_canary_pass (cfg : SafetyConfig) (s : AgentCounters) (today tool_name : String)
    (h : ¬((tool_name = "yutori_browse" ∧ cfg.max_auto_applies_per_day
            ≤ (_reset_daily_counters_if_needed s today).applies_today)
      ∨ (tool_name = "notify_user" ∧ cfg.max_auto_send_messages_per_day
            ≤ (_reset_daily_counters_if_needed s today).messages_today))) :
    _check_canary_limits cfg NexusMode.canary s today tool_name
      = (_reset_daily_counters_if_needed s today, true) := by
  simp only [_check_canary_limits]
  rw [if_neg (fun hc => hc rfl)]
  split_ifs with h1 h2
  · exact absurd (Or.inl h1) h
  · exact absurd (Or.inr h2) h
  · rfl

/-- C1: the mode-based gate of `execute_tool`.  In DRY_RUN and REPLAY every
side-effecting tool is blocked with a reason containing the mode name; in
CANARY (after the lazy daily reset) exactly `yutori_browse` at or above the
apply quota and `notify_user` at or above the message quota are blocked and
every other call reaches the dispatch; in LIVE every call reaches the
dispatch. -/
theorem execute_tool_mode_gate (cfg : SafetyConfig) (mode : NexusMode) (s : AgentCounters)
    (today tool_name : String) (dispatch : Except String StrDict) :
    ((mode = NexusMode.dry_run ∨ mode = NexusMode.replay) →
      SIDE_EFFECT_TOOLS.contains tool_name = true →
      execute_tool cfg mode s today tool_name dispatch = (blocked_mode_result mode, s)
        ∧ ∃ pre post, "Side effects disabled in " ++ mode.value ++ " mode"
            = pre ++ mode.value ++ post)
    ∧ (mode = NexusMode.canary →
      (((tool_name = "yutori_browse" ∧ cfg.max_auto_applies_per_day
            ≤ (_reset_daily_counters_if_needed s today).applies_today)
        ∨ (tool_name = "notify_user" ∧ cfg.max_auto_send_messages_per_day
            ≤ (_reset_daily_counters_if_needed s today).messages_today)) →
        execute_tool cfg mode s today tool_name dispatch
          = (blocked_canary_result, _reset_daily_counters_if_needed s today))
      ∧ (¬((tool_name = "yutori_browse" ∧ cfg.max_auto_applies_per_day
            ≤ (_reset_daily_counters_if_needed s today).applies_today)
        ∨ (tool_name = "notify_user" ∧ cfg.max_auto_send_messages_per_day
            ≤ (_reset_daily_counters_if_needed s today).messages_today)) →
        execute_tool cfg mode s today tool_name dispatch
          = afterGate (_reset_daily_counters_if_needed s today) tool_name dispatch))
    ∧ (mode = NexusMode.live →
      execute_tool cfg mode s today tool_name dispatch = afterGate s tool_name dispatch) := by
  refine ⟨?_, ?_, ?_⟩
  · intro hm hside
    have hblock : SIDE_EFFECT_TOOLS.contains tool_name = true
        ∧ ¬allow_side_effects mode = true := by
      rcases hm with hm | hm <;> subst hm <;> exact ⟨hside, by decide⟩
    refine ⟨?_, "Side effects disabled in ", " mode", rfl⟩
    simp only [execute_tool]
    rw [if_pos hblock]
  · intro hm
    subst hm
    constructor
    · intro hq
      simp only [execute_tool]
      rw [if_neg (fun hc => hc.2 (by decide)), check_canary_blocked cfg s today tool_name hq]
      rfl
    · intro hq
      simp only [execute_tool]
      rw [if_neg (fun hc => hc.2 (by decide)), check_canary_pass cfg s today tool_name hq]
      rfl
  · intro hm
    subst hm
    simp only [execute_tool]
    rw [if_neg (fun hc => hc.2 (by decide)),
      check_canary_skip cfg _ s today tool_name (by decide)]
    rfl

/-- Witness for C1 in DRY_RUN: the apply-style tool is blocked and the reason
carries the mode name. -/
theorem execute_tool_mode_gate_witness :
    execute_tool ⟨10, 5⟩ NexusMode.dry_run initCounters "2025-01-01" "yutori_browse"
        (Except.ok [])
      = (blocked_mode_result NexusMode.dry_run, initCounters)
    ∧ ∃ pre post, "Side effects disabled in " ++ NexusMode.dry_run.value ++ " mode"
        = pre ++ NexusMode.dry_run.value ++ post :=
  (execute_tool_mode_gate ⟨10, 5⟩ NexusMode.dry_run initCounters "2025-01-01" "yutori_browse"
    (Except.ok [])).1 (Or.inl rfl) (by decide)

/-- C9 counterexample: in CANARY mode with a rolled-over date, `execute_tool`
lazily resets the counters before dispatching, so a call whose dispatch
raises still changes `applies_today` (here from 5 to 0) — the claim's
"counters are left unchanged" fails at this input. -/
theorem execute_tool_counters_counterexample :
    (execute_tool ⟨10, 5⟩ NexusMode.canary ⟨5, 0, "2025-01-01"⟩ "2025-01-02"
        "tavily_search" (Except.error "boom")).2.applies_today ≠ 5 := by
  decide

/-- C9 amended: relative to the counters after the lazy daily reset (the
identity except in CANARY mode with a rolled-over date): a successful
dispatch of `yutori_browse` increments `applies_today` by exactly one; a
dispatch that raises leaves the counters at their post-reset values; and no
other tool ever changes them. -/
theorem execute_tool_counter_updates (cfg : SafetyConfig) (mode : NexusMode)
    (s : AgentCounters) (today tool_name : String) (dispatch : Except String StrDict) :
    (mode ≠ NexusMode.canary → (_check_canary_limits cfg mode s today tool_name).1 = s)
    ∧ (mode = NexusMode.canary →
        (_check_canary_limits cfg mode s today tool_name).1
          = _reset_daily_counters_if_needed s today)
    ∧ (gate_passes cfg mode s today tool_name = true →
        ∀ r : StrDict, dispatch = Except.ok r → tool_name = "yutori_browse" →
        (execute_tool cfg mode s today tool_name dispatch).2
          = { (_check_canary_limits cfg mode s today tool_name).1 with
              applies_today :=
                (_check_canary_limits cfg mode s today tool_name).1.applies_today + 1 })
    ∧ (gate_passes cfg mode s today tool_name = true →
        ∀ e : String, dispatch = Except.error e →
        (execute_tool cfg mode s today tool_name dispatch).2
          = (_check_canary_limits cfg mode s today tool_name).1)
    ∧ (tool_name ≠ "yutori_browse" →
        (execute_tool cfg mode s today tool_name dispatch).2
          = (_check_canary_limits cfg mode s today tool_name).1) := by
  refine ⟨?_, ?_, ?_, ?_, ?_⟩
  · intro h; rw [check_canary_skip cfg mode s today tool_name h]
  · intro h; subst h; exact check_canary_state cfg s today tool_name
  · intro hg r hd ht
    subst hd; subst ht
    simp only [gate_passes, Bool.and_eq_true, Bool.not_eq_true'] at hg
    simp only [execute_tool]
    rw [if_neg (fun hc => by
      rw [hc.1] at hg
      exact hc.2 (by simpa using hg.1))]
    rw [if_pos hg.2]
    simp [afterGate]
  · intro hg e hd
    subst hd
    simp only [gate_passes, Bool.and_eq_true, Bool.not_eq_true'] at hg
    simp only [execute_tool]
    rw [if_neg (fun hc => by
      rw [hc.1] at hg
      exact hc.2 (by simpa using hg.1))]
    rw [if_pos hg.2]
    simp [afterGate]
  · intro ht
    simp only [execute_tool]
    split_ifs with h1 h2
    · have hmode : mode ≠ NexusMode.canary := by
        intro hm; subst hm; exact h1.2 (by decide)
      rw [check_canary_skip cfg mode s today tool_name hmode]
    · cases dispatch with
      | ok r => simp [afterGate, ht]
      | error e => simp [afterGate]
    · rfl

/-- Witness for the amended C9: a successful LIVE-mode `yutori_browse`
dispatch takes a fresh agent from 0 to 1 application. -/
theorem execute_tool_counter_updates_witness :
    (execute_tool ⟨10, 5⟩ NexusMode.live initCounters "2025-01-01" "yutori_browse"
        (Except.ok [("status", "applied")])).2 = ⟨1, 0, ""⟩ :=
  (execute_tool_counter_updates ⟨10, 5⟩ NexusMode.live initCounters "2025-01-01"
    "yutori_browse" (Except.ok [("status", "applied")])).2.2.1 (by decide)
    [("status", "applied")] rfl rfl

theorem reset_messages_zero (s : AgentCounters) (today : String)
    (h : s.messages_today = 0) :
    (_reset_daily_counters_if_needed s today).messages_today = 0 := by
  simp only [_reset_daily_counters_if_needed]
  split_ifs <;> simp [h]

theorem check_canary_notify_pass (cfg : SafetyConfig) (s : AgentCounters) (today : String)
    (hmax : 0 < cfg.max_auto_send_messages_per_day) (hmsg : s.messages_today = 0) :
    _check_canary_limits cfg NexusMode.canary s today "notify_user"
      = (_reset_daily_counters_if_needed s today, true) := by
  simp only [_check_canary_limits]
  rw [if_neg (by decide),
    if_neg (fun hc => by exact absurd hc.1 (by decide)),
    if_neg (fun hc => by
      have := hc.2
      rw [reset_messages_zero s today hmsg] at this
      omega)]

theorem afterGate_messages (s : AgentCounters) (tool_name : String)
    (dispatch : Except String StrDict) :
    (afterGate s tool_name dispatch).2.messages_today = s.messages_today := by
  cases dispatch with
  | ok r =>
    simp only [afterGate]
    split_ifs <;> rfl
  | error e => rfl

theorem check_canary_messages_zero (cfg : SafetyConfig) (mode : NexusMode)
    (s : AgentCounters) (today tool_name : String) (h : s.messages_today = 0) :
    (_check_canary_limits cfg mode s today tool_name).1.messages_today = 0 := by
  by_cases hm : mode = NexusMode.canary
  · subst hm
    rw [check_canary_state]
    exact reset_messages_zero s today h
  · rw [check_canary_skip cfg mode s today tool_name hm]; exact h

theorem execute_tool_messages_zero (cfg : SafetyConfig) (mode : NexusMode)
    (s : AgentCounters) (today tool_name : String) (dispatch : Except String StrDict)
    (h : s.messages_today = 0) :
    (execute_tool cfg mode s today tool_name dispatch).2.messages_today = 0 := by
  simp only [execute_tool]
  split_ifs with h1 h2
  · exact h
  · rw [afterGate_messages]
    exact check_canary_messages_zero cfg mode s today tool_name h
  · exact check_canary_messages_zero cfg mode s today tool_name h

theorem runAgent_messages_zero (cfg : SafetyConfig) (mode : NexusMode)
    (calls : List ToolCall) :
    (runAgent cfg mode calls).messages_today = 0 := by
  suffices hgen : ∀ s : AgentCounters, s.messages_today = 0 →
      (calls.foldl (fun s c =>
        (execute_tool cfg mode s c.today c.tool_name c.dispatch).2) s).messages_today = 0 by
    exact hgen initCounters rfl
  induction calls with
  | nil => intro s h; exact h
  | cons c t ih =>
    intro s h
    exact ih _ (execute_tool_messages_zero cfg mode s c.today c.tool_name c.dispatch h)

/-- C10: `messages_today` starts at 0 and no `execute_tool` call ever
increments it, so in every reachable agent state the message-quota check
passes whenever the configured limit is positive: `notify_user` is never
blocked by its daily quota (shown both on `_check_canary_limits` and on the
full CANARY-mode `execute_tool`, which always reaches the dispatch). -/
theorem notify_user_quota_never_blocks (cfg : SafetyConfig) (mode : NexusMode)
    (calls : List ToolCall) :
    (runAgent cfg mode calls).messages_today = 0
    ∧ (0 < cfg.max_auto_send_messages_per_day →
        ∀ (today : String) (dispatch : Except String StrDict),
        (_check_canary_limits cfg mode (runAgent cfg mode calls) today "notify_user").2 = true
        ∧ execute_tool cfg NexusMode.canary (runAgent cfg NexusMode.canary calls) today
            "notify_user" dispatch
          = afterGate (_reset_daily_counters_if_needed (runAgent cfg NexusMode.canary calls)
              today) "notify_user" dispatch) := by
  refine ⟨runAgent_messages_zero cfg mode calls, fun hmax today dispatch => ⟨?_, ?_⟩⟩
  · by_cases hm : mode = NexusMode.canary
    · subst hm
      rw [check_canary_notify_pass cfg _ today hmax (runAgent_messages_zero cfg _ calls)]
    · rw [check_canary_skip cfg mode _ today "notify_user" hm]
  · simp only [execute_tool]
    rw [if_neg (fun hc => hc.2 (by decide)),
      check_canary_notify_pass cfg _ today hmax (runAgent_messages_zero cfg _ calls)]
    rfl

/-- Witness for C10 on a fresh CANARY agent with the default limits. -/
theorem notify_user_quota_never_blocks_witness :
    (runAgent ⟨10, 5⟩ NexusMode.canary []).messages_today = 0
    ∧ (_check_canary_limits ⟨10, 5⟩ NexusMode.canary (runAgent ⟨10, 5⟩ NexusMode.canary [])
        "2025-01-01" "notify_user").2 = true :=
  ⟨(notify_user_quota_never_blocks ⟨10, 5⟩ NexusMode.canary []).1,
   ((notify_user_quota_never_blocks ⟨10, 5⟩ NexusMode.canary []).2 (by decide) "2025-01-01"
     (Except.ok [])).1⟩

/-! ## C5: the affinity/avoided-set invariant of the preference engine -/

theorem lookup_setKey (l : List (String × ℚ)) (k k2 : String) (v : ℚ) :
    (setKey l k v).lookup k2 = if k2 = k then some v else l.lookup k2 := by
  induction l with
  | nil =>
    by_cases h : k2 = k
    · simp [setKey, List.lookup, h]
    · simp only [setKey, List.lookup]
      rw [show (k2 == k) = false from beq_eq_false_iff_ne.mpr h, if_neg h]
  | cons p t ih =>
    obtain ⟨k3, v3⟩ := p
    simp only [setKey]
    by_cases h3 : k3 = k
    · rw [if_pos h3]
      subst h3
      by_cases h : k2 = k3
      · subst h
        simp [List.lookup]
      · simp only [List.lookup]
        rw [show (k2 == k3) = false from beq_eq_false_iff_ne.mpr h, if_neg h]
    · rw [if_neg h3]
      by_cases h : k2 = k3
      · have hk2k : ¬(k2 = k) := fun hh => h3 (by rw [← h]; exact hh)
        simp only [List.lookup]
        rw [show (k2 == k3) = true from beq_iff_eq.mpr h, if_neg hk2k]
      · simp only [List.lookup]
        rw [show (k2 == k3) = false from beq_eq_false_iff_ne.mpr h]
        exact ih

theorem contains_setAdd_self (l : List String) (t : String) :
    (setAdd l t).contains t = true := by
  simp only [setAdd]
  split_ifs with h
  · exact h
  · simp

theorem contains_setAdd_ne (l : List String) (t t2 : String) (h : ¬(t2 = t)) :
    (setAdd l t).contains t2 = l.contains t2 := by
  simp only [setAdd]
  split_ifs with hc
  · rfl
  · simp [h]

theorem contains_setDiscard_self (l : List String) (t : String) :
    (setDiscard l t).contains t = false := by
  simp [setDiscard, List.mem_filter]

theorem contains_setDiscard_ne (l : List String) (t t2 : String) (h : ¬(t2 = t)) :
    (setDiscard l t).contains t2 = l.contains t2 := by
  simp only [setDiscard]
  rw [Bool.eq_iff_iff]
  simp [List.elem_iff, List.mem_filter, h]

theorem adjust_affinity_eq (s : PreferenceEngine) (t : String) (d : ℚ) (t2 : String) :
    get_topic_affinity (adjust_topic_affinity s t d) t2
      = if t2 = t then max (-1) (min 1 (get_topic_affinity s t + d))
        else get_topic_affinity s t2 := by
  simp only [get_topic_affinity, adjust_topic_affinity, lookupD]
  rw [lookup_setKey]
  by_cases h : t2 = t
  · rw [if_pos h, if_pos h]
    rfl
  · rw [if_neg h, if_neg h]

theorem adjust_avoided_eq (s : PreferenceEngine) (t : String) (d : ℚ) (t2 : String) :
    is_topic_avoided (adjust_topic_affinity s t d) t2
      = if t2 = t then
          (if max (-1) (min 1 (get_topic_affinity s t + d)) < -0.5 then true
           else if -0.3 ≤ max (-1) (min 1 (get_topic_affinity s t + d)) then false
           else is_topic_avoided s t)
        else is_topic_avoided s t2 := by
  simp only [adjust_topic_affinity, is_topic_avoided, get_topic_affinity, lookupD]
  by_cases ht : t2 = t
  · rw [if_pos ht]
    subst ht
    split_ifs with h1 h2 h3 h4
    · exact contains_setAdd_self _ _
    · exact contains_setDiscard_self _ _
    · exact absurd h2.2 h3
    · exact Bool.eq_false_iff.mpr (fun hc => h2 ⟨hc, h4⟩)
    · rfl
  · rw [if_neg ht]
    split_ifs with h1 h2
    · exact contains_setAdd_ne _ _ _ ht
    · exact contains_setDiscard_ne _ _ _ ht
    · rfl

theorem adjust_inv (s : PreferenceEngine) (t : String) (d : ℚ) (h : EngineInv s) :
    EngineInv (adjust_topic_affinity s t d) := by
  intro t2
  have haff := adjust_affinity_eq s t d t2
  have hav := adjust_avoided_eq s t d t2
  by_cases ht : t2 = t
  · rw [if_pos ht] at haff hav
    refine ⟨?_, ?_, ?_⟩
    · rw [haff]
      exact ⟨le_max_left _ _, max_le (by norm_num) (min_le_left _ _)⟩
    · intro hlt
      rw [haff] at hlt
      rw [hav, if_pos hlt]
    · intro hge
      rw [haff] at hge
      rw [hav, if_neg (by linarith), if_pos hge]
  · rw [if_neg ht] at haff hav
    refine ⟨?_, ?_, ?_⟩
    · rw [haff]; exact (h t2).1
    · intro hlt
      rw [haff] at hlt
      rw [hav]
      exact (h t2).2.1 hlt
    · intro hge
      rw [haff] at hge
      rw [hav]
      exact (h t2).2.2 hge

theorem foldl_adjust_inv (d : ℚ) (topics : List String) (s : PreferenceEngine)
    (h : EngineInv s) :
    EngineInv (topics.foldl (fun st t => adjust_topic_affinity st t d) s) := by
  induction topics generalizing s with
  | nil => exact h
  | cons a rest ih =>
    simp only [List.foldl_cons]
    exact ih _ (adjust_inv s a d h)

theorem update_time_inv (s : PreferenceEngine) (e : String) (b : Bool) (h : EngineInv s) :
    EngineInv (update_time_preferences s e b) := by
  simp only [update_time_preferences]
  split_ifs <;> exact h

theorem process_feedback_inv (s : PreferenceEngine) (fb : Feedback) (h : EngineInv s) :
    EngineInv (process_feedback s fb) := by
  have h1 : EngineInv {s with feedback_count := s.feedback_count + 1} := h
  simp only [process_feedback]
  split_ifs with ha hr hni hbt he hra
  · exact foldl_adjust_inv _ _ _ h1
  · exact foldl_adjust_inv _ _ _ (foldl_adjust_inv _ _ _ h1)
  · exact update_time_inv _ _ _ (foldl_adjust_inv _ _ _ h1)
  · exact foldl_adjust_inv _ _ _ h1
  · exact foldl_adjust_inv _ _ _ h1
  · cases fb.rating with
    | none => exact h1
    | some r => exact foldl_adjust_inv _ _ _ h1
  · exact h1

theorem runPE_inv (ops : List PEOp) : EngineInv (runPE ops) := by
  suffices hgen : ∀ s, EngineInv s → EngineInv (ops.foldl applyOp s) by
    refine hgen initEngine ?_
    intro t
    refine ⟨⟨by norm_num [get_topic_affinity, initEngine, lookupD, List.lookup],
      by norm_num [get_topic_affinity, initEngine, lookupD, List.lookup]⟩, ?_, ?_⟩
    · intro hlt
      norm_num [get_topic_affinity, initEngine, lookupD, List.lookup] at hlt
    · intro _
      rfl
  induction ops with
  | nil => intro s h; exact h
  | cons op rest ih =>
    intro s h
    simp only [List.foldl_cons]
    refine ih _ ?_
    cases op with
    | feedback fb => exact process_feedback_inv _ _ h
    | adjust t2 d => exact adjust_inv _ _ _ h

/-- C5: after any sequence of `process_feedback` / `adjust_topic_affinity`
calls from a fresh engine, every topic affinity lies in [-1, 1], every topic
with affinity below -0.5 is in the avoided set, and no topic with affinity
at or above -0.3 is; and one adjustment updates the adjusted topic's avoided
status exactly by the hysteresis rule — enter below -0.5, leave at or above
-0.3, keep the current status in between. -/
theorem preference_engine_invariant (ops : List PEOp) (t : String) :
    (-1 ≤ get_topic_affinity (runPE ops) t ∧ get_topic_affinity (runPE ops) t ≤ 1)
    ∧ (get_topic_affinity (runPE ops) t < -0.5 → is_topic_avoided (runPE ops) t = true)
    ∧ (-0.3 ≤ get_topic_affinity (runPE ops) t → is_topic_avoided (runPE ops) t = false)
    ∧ (∀ (s : PreferenceEngine) (d : ℚ),
        is_topic_avoided (adjust_topic_affinity s t d) t
          = (if max (-1) (min 1 (get_topic_affinity s t + d)) < -0.5 then true
             else if -0.3 ≤ max (-1) (min 1 (get_topic_affinity s t + d)) then false
             else is_topic_avoided s t)) := by
  refine ⟨(runPE_inv ops t).1, (runPE_inv ops t).2.1, (runPE_inv ops t).2.2, ?_⟩
  intro s d
  have h := adjust_avoided_eq s t d t
  rw [if_pos rfl] at h
  exact h

/-- Witness for C5: one rejection-sized adjustment of -0.6 pushes a fresh
topic to affinity -0.6 and into the avoided set. -/
theorem preference_engine_invariant_witness :
    is_topic_avoided (runPE [PEOp.adjust "x" (-0.6)]) "x" = true :=
  (preference_engine_invariant [PEOp.adjust "x" (-0.6)] "x").2.1 (by
    have h := adjust_affinity_eq initEngine "x" (-0.6) "x"
    rw [if_pos rfl] at h
    show get_topic_affinity (adjust_topic_affinity initEngine "x" (-0.6)) "x" < -0.5
    rw [h]
    norm_num [get_topic_affinity, initEngine, lookupD, List.lookup, max_def, min_def])

/-! ## C6: `recalculate_weights` returns 5 weights ≥ 5 summing to 100 -/

theorem variance_bounds (d : Dim) (history : List FeedbackRecord) :
    -10 ≤ _compute_dimension_variance d history
      ∧ _compute_dimension_variance d history ≤ 10 := by
  simp only [_compute_dimension_variance]
  split_ifs
  · norm_num
  · norm_num
  · exact ⟨le_max_left _ _, max_le (by norm_num) (min_le_left _ _)⟩

theorem pyRound_le (q : ℚ) : (pyRound q : ℚ) ≤ q + 1 / 2 := by
  have hf : ((⌊q⌋ : ℤ) : ℚ) ≤ q := Int.floor_le q
  have hf2 : q - 1 < ((⌊q⌋ : ℤ) : ℚ) := Int.sub_one_lt_floor q
  simp only [pyRound]
  split_ifs with h1 h2 h3 <;> push_cast <;> push_cast at h1 <;> linarith

theorem weight_le (v total : ℚ) (hv : 5 ≤ v) (h150 : total ≤ 150) (hpos : 0 < total) :
    ((max 5 (pyRound (v / total * 100)) : ℤ) : ℚ) ≤ v / total * 100 + 5 / 3 := by
  have hy : 10 / 3 ≤ v / total * 100 := by
    rw [div_mul_eq_mul_div, le_div_iff₀ hpos]
    nlinarith
  rcases le_or_lt 5 (pyRound (v / total * 100)) with h | h
  · rw [max_eq_right h]
    have := pyRound_le (v / total * 100)
    linarith
  · rw [max_eq_left h.le]
    push_cast
    linarith

theorem largestDim_ge (w : Weights) (d : Dim) : w.get d ≤ w.get (largestDim w) := by
  simp only [largestDim]
  split_ifs <;> cases d <;> simp only [Weights.get] <;> omega

theorem absorbDiff_sum (w : Weights) :
    (absorbDiff w).topic + (absorbDiff w).people + (absorbDiff w).event_type
      + (absorbDiff w).time + (absorbDiff w).historical = 100 := by
  simp only [absorbDiff]
  split_ifs with h
  · omega
  · cases hL : largestDim w <;> simp only [addToDim] <;> omega

theorem absorbDiff_min (w : Weights) (hmin : ∀ d : Dim, 5 ≤ w.get d)
    (hS : w.topic + w.people + w.event_type + w.time + w.historical ≤ 118) :
    ∀ d : Dim, 5 ≤ (absorbDiff w).get d := by
  intro d
  have h1 := largestDim_ge w Dim.topic
  have h2 := largestDim_ge w Dim.people
  have h3 := largestDim_ge w Dim.event_type
  have h4 := largestDim_ge w Dim.time
  have h5 := largestDim_ge w Dim.historical
  have hm1 := hmin Dim.topic
  have hm2 := hmin Dim.people
  have hm3 := hmin Dim.event_type
  have hm4 := hmin Dim.time
  have hm5 := hmin Dim.historical
  simp only [Weights.get] at hm1 hm2 hm3 hm4 hm5
  simp only [absorbDiff]
  split_ifs with h
  · cases d <;> simp only [Weights.get] <;> omega
  · cases hL : largestDim w <;> rw [hL] at h1 h2 h3 h4 h5 <;>
      simp only [Weights.get] at h1 h2 h3 h4 h5 <;>
      cases d <;> simp only [addToDim, Weights.get] <;> omega

theorem roundWeights_min (rt rp re rti rh : ℚ) :
    ∀ d : Dim, 5 ≤ (roundWeights rt rp re rti rh).get d := by
  intro d
  cases d <;> exact le_max_left _ _

theorem roundWeights_sum_le (rt rp re rti rh : ℚ)
    (h1 : 5 ≤ rt) (h2 : 5 ≤ rp) (h3 : 5 ≤ re) (h4 : 5 ≤ rti) (h5 : 5 ≤ rh)
    (h150 : rt + rp + re + rti + rh ≤ 150) :
    (roundWeights rt rp re rti rh).topic + (roundWeights rt rp re rti rh).people
      + (roundWeights rt rp re rti rh).event_type + (roundWeights rt rp re rti rh).time
      + (roundWeights rt rp re rti rh).historical ≤ 108 := by
  have hTpos : (0:ℚ) < rt + rp + re + rti + rh := by linarith
  have w1 := weight_le rt (rt + rp + re + rti + rh) h1 h150 hTpos
  have w2 := weight_le rp (rt + rp + re + rti + rh) h2 h150 hTpos
  have w3 := weight_le re (rt + rp + re + rti + rh) h3 h150 hTpos
  have w4 := weight_le rti (rt + rp + re + rti + rh) h4 h150 hTpos
  have w5 := weight_le rh (rt + rp + re + rti + rh) h5 h150 hTpos
  have hy : rt / (rt + rp + re + rti + rh) * 100 + rp / (rt + rp + re + rti + rh) * 100
      + re / (rt + rp + re + rti + rh) * 100 + rti / (rt + rp + re + rti + rh) * 100
      + rh / (rt + rp + re + rti + rh) * 100 = 100 := by
    field_simp
    ring
  have hsumQ : (((roundWeights rt rp re rti rh).topic + (roundWeights rt rp re rti rh).people
      + (roundWeights rt rp re rti rh).event_type + (roundWeights rt rp re rti rh).time
      + (roundWeights rt rp re rti rh).historical : ℤ) : ℚ) ≤ 325 / 3 := by
    simp only [roundWeights]
    push_cast
    push_cast at w1 w2 w3 w4 w5
    linarith
  have h3S : 3 * ((roundWeights rt rp re rti rh).topic + (roundWeights rt rp re rti rh).people
      + (roundWeights rt rp re rti rh).event_type + (roundWeights rt rp re rti rh).time
      + (roundWeights rt rp re rti rh).historical) ≤ 325 := by
    have hq : ((3 : ℚ)) * (((roundWeights rt rp re rti rh).topic
        + (roundWeights rt rp re rti rh).people + (roundWeights rt rp re rti rh).event_type
        + (roundWeights rt rp re rti rh).time + (roundWeights rt rp re rti rh).historical : ℤ) : ℚ)
        ≤ 325 := by linarith
    exact_mod_cast hq
  omega

theorem normalizeWeights_min_sum (rt rp re rti rh : ℚ)
    (h1 : 5 ≤ rt) (h2 : 5 ≤ rp) (h3 : 5 ≤ re) (h4 : 5 ≤ rti) (h5 : 5 ≤ rh)
    (h150 : rt + rp + re + rti + rh ≤ 150) :
    (∀ d : Dim, 5 ≤ (normalizeWeights rt rp re rti rh).get d)
    ∧ (normalizeWeights rt rp re rti rh).topic + (normalizeWeights rt rp re rti rh).people
      + (normalizeWeights rt rp re rti rh).event_type + (normalizeWeights rt rp re rti rh).time
      + (normalizeWeights rt rp re rti rh).historical = 100 := by
  constructor
  · exact absorbDiff_min _ (roundWeights_min rt rp re rti rh)
      (le_trans (roundWeights_sum_le rt rp re rti rh h1 h2 h3 h4 h5 h150) (by norm_num))
  · exact absorbDiff_sum _

/-- C6: below 5 processed feedback signals `recalculate_weights` returns
exactly the initial weights; from 5 on it returns five integer weights, each
at least 5, summing to exactly 100 (the rounding remainder is absorbed by the
largest weight inside `absorbDiff`); and every per-dimension delta is the
clamped-to-[-10, 10] mean difference of accepted and rejected sub-scores. -/
theorem recalculate_weights_spec (feedback_count : Nat) (history : List FeedbackRecord) :
    (feedback_count < 5 → recalculate_weights feedback_count history = INITIAL_WEIGHTS)
    ∧ (5 ≤ feedback_count →
        (∀ d : Dim, 5 ≤ (recalculate_weights feedback_count history).get d)
        ∧ (recalculate_weights feedback_count history).topic
          + (recalculate_weights feedback_count history).people
          + (recalculate_weights feedback_count history).event_type
          + (recalculate_weights feedback_count history).time
          + (recalculate_weights feedback_count history).historical = 100)
    ∧ (∀ d : Dim, -10 ≤ _compute_dimension_variance d history
        ∧ _compute_dimension_variance d history ≤ 10) := by
  refine ⟨?_, ?_, fun d => variance_bounds d history⟩
  · intro h
    simp [recalculate_weights, h]
  · intro h
    have hns : recalculate_weights feedback_count history
        = normalizeWeights
            (max 5 (30 + _compute_dimension_variance .topic history))
            (max 5 (25 + _compute_dimension_variance .people history))
            (max 5 (15 + _compute_dimension_variance .event_type history))
            (max 5 (15 + _compute_dimension_variance .time history))
            (max 5 (15 + _compute_dimension_variance .historical history)) := by
      simp [recalculate_weights, Nat.not_lt.mpr h]
    have v1 := variance_bounds .topic history
    have v2 := variance_bounds .people history
    have v3 := variance_bounds .event_type history
    have v4 := variance_bounds .time history
    have v5 := variance_bounds .historical history
    have b1 : max 5 (30 + _compute_dimension_variance .topic history) ≤ 40 :=
      max_le (by norm_num) (by linarith [v1.2])
    have b2 : max 5 (25 + _compute_dimension_variance .people history) ≤ 35 :=
      max_le (by norm_num) (by linarith [v2.2])
    have b3 : max 5 (15 + _compute_dimension_variance .event_type history) ≤ 25 :=
      max_le (by norm_num) (by linarith [v3.2])
    have b4 : max 5 (15 + _compute_dimension_variance .time history) ≤ 25 :=
      max_le (by norm_num) (by linarith [v4.2])
    have b5 : max 5 (15 + _compute_dimension_variance .historical history) ≤ 25 :=
      max_le (by norm_num) (by linarith [v5.2])
    rw [hns]
    exact normalizeWeights_min_sum _ _ _ _ _
      (le_max_left _ _) (le_max_left _ _) (le_max_left _ _) (le_max_left _ _) (le_max_left _ _)
      (by linarith)

/-- Witness for C6 on both sides of the 5-signal threshold. -/
theorem recalculate_weights_spec_witness :
    recalculate_weights 3 [] = INITIAL_WEIGHTS
    ∧ (∀ d : Dim, 5 ≤ (recalculate_weights 7 []).get d)
    ∧ (recalculate_weights 7 []).topic + (recalculate_weights 7 []).people
      + (recalculate_weights 7 []).event_type + (recalculate_weights 7 []).time
      + (recalculate_weights 7 []).historical = 100 :=
  ⟨(recalculate_weights_spec 3 []).1 (by omega),
   ((recalculate_weights_spec 7 []).2.1 (by omega)).1,
   ((recalculate_weights_spec 7 []).2.1 (by omega)).2⟩

end Nexus
